import Mathlib

/-!
Verification of `dataclass_io.reader` (`DataclassReader`, `FileHeader`):
header parsing, schema binding, per-row type coercion, and the reader
iteration state machine.

Modelling conventions:
  * A text file is a list of lines; each `Line` is the list of the line's
    characters without its trailing line terminator (Python's file
    iteration yields lines with terminators, but every consumer here
    either strips them or splits the terminator off, so the
    terminator-free content is what the logic sees).
  * The delimiter and comment characters are single characters, as
    required by the `csv` module and as used by the defaults (tab, hash).
  * Python strings become `List Char`, Python `None` cell values become
    `Cell.none`, exceptions become `PyError` values in `Except`.
-/

/-- A line of text, as the list of its characters, with no trailing
line terminator. -/
abbrev Line := List Char

/-- View of a string literal as a line. -/
def strToLine (s : String) : Line := s.data

/-- Whitespace characters removed by Python's `str.strip()` (ASCII
fragment: space, tab, newline, carriage return, vertical tab, form feed). -/
def pyIsSpace (c : Char) : Bool :=
  c == ' ' || c == '\t' || c == '\n' || c == '\r' || c == '\x0b' || c == '\x0c'

/-- Python's `str.strip()`: drop whitespace from both ends. -/
def pyStrip (l : Line) : Line :=
  ((l.dropWhile pyIsSpace).reverse.dropWhile pyIsSpace).reverse

/-- Python's `str.split(sep)` for a one-character separator `d`: split on
every occurrence of `d`, keeping empty pieces. -/
def pySplit (l : Line) (d : Char) : List Line :=
  match l with
  | [] => [[]]
  | c :: rest =>
    if c = d then
      [] :: pySplit rest d
    else
      match pySplit rest d with
      | [] => [[c]]
      | g :: gs => (c :: g) :: gs

/-- Python's `str.startswith(c)` for a one-character argument. -/
def lineStartsWith (l : Line) (c : Char) : Bool :=
  match l with
  | [] => false
  | a :: _ => a == c

/-- Concatenate cells into one line, separated by the delimiter `d`
(the layout of one delimited row in the input file). -/
def joinCells (d : Char) : List Line → Line
  | [] => []
  | [c] => c
  | c :: c2 :: cs => c ++ d :: joinCells d (c2 :: cs)

/-- `FileHeader` from `reader.py`: the preface lines (comment-prefixed or
blank lines preceding the fieldnames) and the fieldname row's tokens. -/
structure FileHeader where
  preface : List Line
  fieldnames : List Line
deriving DecidableEq

/-- The preface test from `DataclassReader._get_header`: a line is part of
the preface when `line.startswith(header_comment_char) or line.strip() == ""`. -/
def isPreface (commentChar : Char) (l : Line) : Bool :=
  lineStartsWith l commentChar || (pyStrip l).isEmpty

/-- `DataclassReader._get_header`: accumulate stripped preface lines until
the first non-preface line, which is stripped and split on the delimiter to
give the fieldnames; return `none` if the stream runs out first.  Also
returns the lines remaining after the fieldname row (the stream cursor
position handed to the row reader). -/
def getHeader (commentChar delim : Char) : List Line → Option (FileHeader × List Line)
  | [] => none
  | l :: rest =>
    if isPreface commentChar l then
      match getHeader commentChar delim rest with
      | none => none
      | some (h, rem) => some (⟨pyStrip l :: h.preface, h.fieldnames⟩, rem)
    else
      some (⟨[], pySplit (pyStrip l) delim⟩, rest)

/-- Declared field types supported by the model: `str` and `int`
annotations on the dataclass fields. -/
inductive FieldType
  | str
  | int
deriving DecidableEq

/-- A decoded Python value: a string or an integer. -/
inductive PyValue
  | str (s : Line)
  | int (i : Int)
deriving DecidableEq

/-- A raw cell value handed to a coercion: a string cell from the file, or
the `None` used by `csv.DictReader` as `restval` for missing cells. -/
inductive Cell
  | str (s : Line)
  | none
deriving DecidableEq

/-- A Python exception, as kind plus message. -/
inductive PyError
  | valueError (msg : Line)
  | typeError (msg : Line)
  | keyError
deriving DecidableEq

/-- Value of digit characters read in base 10. -/
def digitsToNat (l : List Char) : Nat :=
  List.foldl (fun n c => 10 * n + (c.toNat - 48)) 0 l

/-- Python's `int(s)` on a string (ASCII fragment without underscore
separators): strip surrounding whitespace, allow one optional sign, then
require one or more decimal digits; `none` when the literal is invalid. -/
def pyIntParse (l : Line) : Option Int :=
  match pyStrip l with
  | '+' :: ds => if ds ≠ [] ∧ ds.all Char.isDigit then some (digitsToNat ds) else Option.none
  | '-' :: ds => if ds ≠ [] ∧ ds.all Char.isDigit then some (-(digitsToNat ds : Int)) else Option.none
  | ds => if ds ≠ [] ∧ ds.all Char.isDigit then some (digitsToNat ds) else Option.none

/-- Apply a field's declared type to one raw cell, as
`field.type(value)` does in `DataclassReader._row_to_dataclass`:
`str` accepts any string and renders `None` as `"None"`; `int` parses the
string (`ValueError` on a bad literal) and rejects `None` (`TypeError`). -/
def coerce : FieldType → Cell → Except PyError PyValue
  | .str, .str s => .ok (.str s)
  | .str, .none => .ok (.str (strToLine "None"))
  | .int, .str s =>
    match pyIntParse s with
    | some i => .ok (.int i)
    | Option.none =>
      .error (.valueError (strToLine "invalid literal for int() with base 10: " ++ s))
  | .int, .none => .error (.typeError (strToLine "int() argument must be a string, not NoneType"))

/-- A dataclass type: its class name and its fields in declaration order,
each a field name with its declared type. -/
structure Dataclass where
  name : Line
  fields : List (Line × FieldType)

/-- A constructed dataclass instance: field names with their decoded
values, in field declaration order. -/
abbrev Record := List (Line × PyValue)

/-- The row mapping built by `csv.DictReader.__next__` from the fieldnames
and one parsed row: fieldnames are paired with cells positionally; missing
cells become the `restval` `None`; surplus cells go under the `restkey`
(which no field name ever equals, so they are dropped from the view keyed
by field names). -/
def mkDictRow : List Line → List Line → List (Line × Cell)
  | [], _ => []
  | n :: ns, [] => (n, Cell.none) :: mkDictRow ns []
  | n :: ns, c :: cs => (n, Cell.str c) :: mkDictRow ns cs

/-- Dictionary lookup `row[name]` on the row mapping. -/
def assocGet : List (Line × Cell) → Line → Option Cell
  | [], _ => Option.none
  | (k, v) :: rest, n => if k = n then some v else assocGet rest n

/-- `DataclassReader._row_to_dataclass`: for each dataclass field in
order, look up the raw cell by field name and coerce it with the field's
declared type; the first failure propagates, otherwise the instance is
constructed from all coerced values. -/
def rowToDataclass (schema : List (Line × FieldType)) (row : List (Line × Cell)) :
    Except PyError Record :=
  match schema with
  | [] => .ok []
  | (n, ft) :: rest =>
    match assocGet row n with
    | Option.none => .error .keyError
    | some cell =>
      match coerce ft cell with
      | .error e => .error e
      | .ok v =>
        match rowToDataclass rest row with
        | .error e => .error e
        | .ok r => .ok ((n, v) :: r)

/-- The `csv` row splitter on one line, for lines free of quote
characters: a blank line yields no fields, any other line is split on the
delimiter. -/
def csvParseLine (delim : Char) (l : Line) : List Line :=
  if l = [] then [] else pySplit l delim

/-- `csv.DictReader.__next__` over the remaining lines: skip rows that
parse to no fields (blank lines), and return the row mapping of the first
real row together with the lines after it; `none` when the lines run out
(`StopIteration`). -/
def dictReaderNext (delim : Char) (fieldnames : List Line) :
    List Line → Option (List (Line × Cell) × List Line)
  | [] => Option.none
  | l :: rest =>
    match csvParseLine delim l with
    | [] => dictReaderNext delim fieldnames rest
    | cells => some (mkDictRow fieldnames cells, rest)

/-- The live state of a `DataclassReader`: the dataclass fields, the
delimiter, the fieldnames bound to the `DictReader`, the lines not yet
consumed, and whether the underlying file handle has been closed. -/
structure ReaderState where
  dcFields : List (Line × FieldType)
  delimiter : Char
  fieldnames : List Line
  remaining : List Line
  closed : Bool
deriving DecidableEq

/-- The message of the `ValueError` raised by `DataclassReader.__init__`
when no header is found. -/
def missingHeaderMsg (path : Line) : Line :=
  strToLine "Could not find a header in the provided file: " ++ path

/-- The message of the `ValueError` raised by `DataclassReader.__init__`
when the file fieldnames differ from the dataclass field names, built
exactly as the f-string on lines 73-79 of `reader.py` builds it (its only
inputs are the dataclass name and the path). -/
def schemaMismatchMsg (dataclassName path : Line) : Line :=
  strToLine "The provided file does not have the same field names as the provided dataclass:\n" ++
    strToLine "\tDataclass: " ++ dataclassName ++ strToLine "\n" ++
    strToLine "\tFile: " ++ path ++ strToLine "\n" ++
    strToLine "\tDataclass fields: " ++ dataclassName ++ strToLine "\n" ++
    strToLine "\tFile: " ++ path ++ strToLine "\n"

/-- `DataclassReader.__init__` after the access and dataclass checks: read
the header (`ValueError` naming the path if absent), require the file
fieldnames to equal the dataclass field names (`ValueError` otherwise),
then bind a `DictReader` over the remaining lines with those fieldnames. -/
def openReader (path : Line) (dc : Dataclass) (delim commentChar : Char)
    (file : List Line) : Except PyError (FileHeader × ReaderState) :=
  match getHeader commentChar delim file with
  | Option.none => .error (.valueError (missingHeaderMsg path))
  | some (hdr, rest) =>
    if hdr.fieldnames = dc.fields.map Prod.fst then
      .ok (hdr, ⟨dc.fields, delim, hdr.fieldnames, rest, false⟩)
    else
      .error (.valueError (schemaMismatchMsg dc.name path))

/-- Outcome of one advance of the reader: a record and the next state, the
normal end of iteration (`StopIteration`), or a raised exception. -/
inductive NextResult
  | yielded (r : Record) (s : ReaderState)
  | stop
  | err (e : PyError)
deriving DecidableEq

/-- Whether an advance outcome is a raised exception. -/
def NextResult.isErr : NextResult → Bool
  | .err _ => true
  | _ => false

/-- `DataclassReader.__next__`: reading from a closed handle raises
`ValueError`; otherwise pull the next row from the `DictReader`
(`StopIteration` becomes `stop` when the lines run out) and convert it
with `_row_to_dataclass`. -/
def readerNext (s : ReaderState) : NextResult :=
  if s.closed then
    .err (.valueError (strToLine "I/O operation on closed file."))
  else
    match dictReaderNext s.delimiter s.fieldnames s.remaining with
    | Option.none => .stop
    | some (row, rest) =>
      match rowToDataclass s.dcFields row with
      | .ok r => .yielded r { s with remaining := rest }
      | .error e => .err e

/-- `DataclassReader.__exit__`: close the underlying file handle. -/
def closeReader (s : ReaderState) : ReaderState :=
  { s with closed := true }

/-- Exhaustive iteration of an open reader (`[row for row in reader]`):
the records yielded in order, and the exception that ended the loop early,
if any. -/
def readRows (delim : Char) (fieldnames : List Line) (schema : List (Line × FieldType)) :
    List Line → List Record × Option PyError
  | [] => ([], Option.none)
  | l :: rest =>
    match csvParseLine delim l with
    | [] => readRows delim fieldnames schema rest
    | cells =>
      match rowToDataclass schema (mkDictRow fieldnames cells) with
      | .error e => ([], some e)
      | .ok r =>
        let p := readRows delim fieldnames schema rest
        (r :: p.1, p.2)

/-- Open a reader on a file and iterate it to the end: the construction
error, or the header together with the yielded records and the exception
that stopped iteration, if any. -/
def readFile (path : Line) (dc : Dataclass) (delim commentChar : Char)
    (file : List Line) : Except PyError (FileHeader × (List Record × Option PyError)) :=
  match openReader path dc delim commentChar file with
  | .error e => .error e
  | .ok (hdr, s) => .ok (hdr, readRows s.delimiter s.fieldnames s.dcFields s.remaining)

/-- Positional decoding of one row of cells against the schema, which the
dictionary-mediated `_row_to_dataclass` is proved to agree with: field `i`
is coerced from cell `i`, missing cells are the `None` restval, surplus
cells are ignored. -/
def decodeRowE (schema : List (Line × FieldType)) (cells : List Line) :
    Except PyError Record :=
  match schema, cells with
  | [], _ => .ok []
  | (n, ft) :: rest, [] =>
    match coerce ft Cell.none with
    | .error e => .error e
    | .ok v =>
      match decodeRowE rest [] with
      | .error e => .error e
      | .ok r => .ok ((n, v) :: r)
  | (n, ft) :: rest, c :: cs =>
    match coerce ft (Cell.str c) with
    | .error e => .error e
    | .ok v =>
      match decodeRowE rest cs with
      | .error e => .error e
      | .ok r => .ok ((n, v) :: r)

/-- Positional decoding of a list of rows, stopping at the first failing
row. -/
def decodeRows (schema : List (Line × FieldType)) :
    List (List Line) → Except PyError (List Record)
  | [] => .ok []
  | r :: rs =>
    match decodeRowE schema r with
    | .error e => .error e
    | .ok rec1 =>
      match decodeRows schema rs with
      | .error e => .error e
      | .ok rest => .ok (rec1 :: rest)

set_option synthInstance.maxSize 512
set_option maxRecDepth 16384

deriving instance DecidableEq for Except

/-- Splitting never yields an empty list of pieces. -/
theorem pySplit_ne_nil (l : Line) (d : Char) : pySplit l d ≠ [] := by
  cases l with
  | nil => simp [pySplit]
  | cons c rest =>
    simp only [pySplit]
    split
    · simp
    · split <;> simp

/-- Splitting a line free of the delimiter yields that line as the only
piece. -/
theorem pySplit_no_delim (d : Char) : ∀ l : Line, d ∉ l → pySplit l d = [l] := by
  intro l
  induction l with
  | nil => intro _; rfl
  | cons c rest ih =>
    intro h
    have hc : ¬ c = d := by rintro rfl; exact h (List.mem_cons_self _ _)
    have hr : d ∉ rest := fun hm => h (List.mem_cons_of_mem _ hm)
    simp only [pySplit, if_neg hc, ih hr]

/-- Splitting peels off a leading delimiter-free piece. -/
theorem pySplit_append (d : Char) (t : Line) : ∀ c : Line, d ∉ c →
    pySplit (c ++ d :: t) d = c :: pySplit t d := by
  intro c
  induction c with
  | nil => intro _; simp [pySplit]
  | cons a c2 ih =>
    intro h
    have ha : ¬ a = d := by rintro rfl; exact h (List.mem_cons_self _ _)
    have hc : d ∉ c2 := fun hm => h (List.mem_cons_of_mem _ hm)
    simp only [List.cons_append, pySplit, if_neg ha, List.append_eq, ih hc]

/-- Splitting a joined row of delimiter-free cells recovers the cells. -/
theorem pySplit_joinCells (d : Char) : ∀ cells : List Line, cells ≠ [] →
    (∀ c ∈ cells, d ∉ c) → pySplit (joinCells d cells) d = cells := by
  intro cells
  induction cells with
  | nil => intro h _; exact absurd rfl h
  | cons c cs ih =>
    intro _ hall
    cases cs with
    | nil => simpa [joinCells] using pySplit_no_delim d c (hall c (List.mem_cons_self _ _))
    | cons c2 cs2 =>
      have h1 : d ∉ c := hall c (List.mem_cons_self _ _)
      have h2 : ∀ x ∈ c2 :: cs2, d ∉ x := fun x hx => hall x (List.mem_cons_of_mem _ hx)
      simp only [joinCells]
      rw [pySplit_append d _ c h1, ih (by simp) h2]

/-- A dictionary entry whose key is no field name does not change the
decoded row. -/
theorem rowToDataclass_notmem (n : Line) (cell : Cell) (row : List (Line × Cell)) :
    ∀ schema : List (Line × FieldType), n ∉ schema.map Prod.fst →
    rowToDataclass schema ((n, cell) :: row) = rowToDataclass schema row := by
  intro schema
  induction schema with
  | nil => intro _; rfl
  | cons f sch ih =>
    intro h
    obtain ⟨fn, ft⟩ := f
    simp only [List.map_cons, List.mem_cons, not_or] at h
    obtain ⟨h1, h2⟩ := h
    simp only [rowToDataclass, assocGet, if_neg h1, ih h2]

/-- The dictionary-mediated row decoding of `_row_to_dataclass` agrees
with positional decoding when the field names are distinct (field names of
a dataclass always are). -/
theorem rowToDataclass_mkDictRow : ∀ (schema : List (Line × FieldType)) (cells : List Line),
    (schema.map Prod.fst).Nodup →
    rowToDataclass schema (mkDictRow (schema.map Prod.fst) cells) = decodeRowE schema cells := by
  intro schema
  induction schema with
  | nil => intro cells _; rfl
  | cons f sch ih =>
    intro cells hnd
    obtain ⟨n, ft⟩ := f
    simp only [List.map_cons] at hnd ⊢
    have hn : n ∉ sch.map Prod.fst := (List.nodup_cons.mp hnd).1
    have hnd2 : (sch.map Prod.fst).Nodup := (List.nodup_cons.mp hnd).2
    cases cells with
    | nil =>
      simp only [mkDictRow, rowToDataclass, assocGet, if_pos rfl, if_true,
        rowToDataclass_notmem n Cell.none _ sch hn, ih [] hnd2, decodeRowE]
    | cons c cs =>
      simp only [mkDictRow, rowToDataclass, assocGet, if_pos rfl, if_true,
        rowToDataclass_notmem n (Cell.str c) _ sch hn, ih cs hnd2, decodeRowE]

/-- Cells beyond the schema length never influence positional decoding. -/
theorem decodeRowE_take : ∀ (schema : List (Line × FieldType)) (cells : List Line),
    decodeRowE schema (cells.take schema.length) = decodeRowE schema cells := by
  intro schema
  induction schema with
  | nil => intro cells; rfl
  | cons f sch ih =>
    intro cells
    obtain ⟨n, ft⟩ := f
    cases cells with
    | nil => rfl
    | cons c cs => simp only [List.length_cons, List.take_succ_cons, decodeRowE, ih cs]

/-- Header parsing of a preface block followed by a non-preface line:
the preface lines are accumulated stripped, the non-preface line is
stripped and split into the fieldnames, and the following lines are left
unread. -/
theorem getHeader_of_preface (cc d : Char) :
    ∀ (p : List Line) (l : Line) (rest : List Line),
    (∀ x ∈ p, isPreface cc x = true) →
    isPreface cc l = false →
    getHeader cc d (p ++ l :: rest) =
      some (⟨p.map pyStrip, pySplit (pyStrip l) d⟩, rest) := by
  intro p
  induction p with
  | nil => intro l rest _ hl; simp [getHeader, hl]
  | cons q p2 ih =>
    intro l rest hp hl
    have hq : isPreface cc q = true := hp q (List.mem_cons_self _ _)
    have hp2 : ∀ x ∈ p2, isPreface cc x = true := fun x hx => hp x (List.mem_cons_of_mem _ hx)
    simp [getHeader, hq, ih l rest hp2 hl]

/-- Header parsing reports absence on a stream of preface lines only. -/
theorem getHeader_none (cc d : Char) :
    ∀ file : List Line, (∀ x ∈ file, isPreface cc x = true) →
    getHeader cc d file = Option.none := by
  intro file
  induction file with
  | nil => intro _; rfl
  | cons l rest ih =>
    intro h
    have hl := h l (List.mem_cons_self _ _)
    have hr := fun x hx => h x (List.mem_cons_of_mem _ hx)
    simp [getHeader, hl, ih hr]

/-- The row reader signals end of iteration on remaining lines that are
all blank. -/
theorem dictReaderNext_none (delim : Char) (fieldnames : List Line) :
    ∀ ls : List Line, (∀ l ∈ ls, l = []) →
    dictReaderNext delim fieldnames ls = Option.none := by
  intro ls
  induction ls with
  | nil => intro _; rfl
  | cons l rest ih =>
    intro h
    have hl := h l (List.mem_cons_self _ _)
    subst hl
    simp [dictReaderNext, csvParseLine, ih (fun x hx => h x (List.mem_cons_of_mem _ hx))]

/-- Opening on a file whose first line is the non-preface join of the
dataclass field names succeeds and binds exactly those fieldnames, leaving
the following lines for the row reader. -/
theorem openReader_header_ok (path : Line) (dc : Dataclass) (d cc : Char)
    (body : List Line)
    (hstrip : pyStrip (joinCells d (dc.fields.map Prod.fst)) = joinCells d (dc.fields.map Prod.fst))
    (hnp : isPreface cc (joinCells d (dc.fields.map Prod.fst)) = false)
    (hdel : ∀ n ∈ dc.fields.map Prod.fst, d ∉ n) :
    openReader path dc d cc (joinCells d (dc.fields.map Prod.fst) :: body) =
      Except.ok (⟨[], dc.fields.map Prod.fst⟩,
        ⟨dc.fields, d, dc.fields.map Prod.fst, body, false⟩) := by
  have hnn : dc.fields.map Prod.fst ≠ [] := by
    intro hmap
    rw [hmap] at hnp
    simp [joinCells, isPreface, lineStartsWith, pyStrip] at hnp
  have hfn : pySplit (pyStrip (joinCells d (dc.fields.map Prod.fst))) d =
      dc.fields.map Prod.fst := by
    rw [hstrip]
    exact pySplit_joinCells d _ hnn hdel
  have hgh : getHeader cc d (joinCells d (dc.fields.map Prod.fst) :: body) =
      some (⟨[], dc.fields.map Prod.fst⟩, body) := by
    simp [getHeader, hnp, hfn]
  simp [openReader, hgh]

/-- Opening on a file made of preface lines followed by the non-preface
join of the dataclass field names succeeds, binds exactly those fieldnames
with the stripped preface recorded in the header, and leaves the following
lines for the row reader. -/
theorem openReader_preface_ok (path : Line) (dc : Dataclass) (d cc : Char)
    (p : List Line) (body : List Line)
    (hpre : ∀ x ∈ p, isPreface cc x = true)
    (hstrip : pyStrip (joinCells d (dc.fields.map Prod.fst)) = joinCells d (dc.fields.map Prod.fst))
    (hnp : isPreface cc (joinCells d (dc.fields.map Prod.fst)) = false)
    (hdel : ∀ n ∈ dc.fields.map Prod.fst, d ∉ n) :
    openReader path dc d cc (p ++ joinCells d (dc.fields.map Prod.fst) :: body) =
      Except.ok (⟨p.map pyStrip, dc.fields.map Prod.fst⟩,
        ⟨dc.fields, d, dc.fields.map Prod.fst, body, false⟩) := by
  have hnn : dc.fields.map Prod.fst ≠ [] := by
    intro hmap
    rw [hmap] at hnp
    simp [joinCells, isPreface, lineStartsWith, pyStrip] at hnp
  have hfn : pySplit (pyStrip (joinCells d (dc.fields.map Prod.fst))) d =
      dc.fields.map Prod.fst := by
    rw [hstrip]
    exact pySplit_joinCells d _ hnn hdel
  have hgh := getHeader_of_preface cc d p (joinCells d (dc.fields.map Prod.fst)) body hpre hnp
  rw [hfn] at hgh
  simp [openReader, hgh]

/-- Iteration over the joined encodings of rows that all decode: every row
is yielded, in order, and the loop ends normally. -/
theorem readRows_ok (d : Char) (schema : List (Line × FieldType))
    (hnd : (schema.map Prod.fst).Nodup) :
    ∀ (rows : List (List Line)) (recs : List Record),
    (∀ r ∈ rows, joinCells d r ≠ [] ∧ ∀ c ∈ r, d ∉ c) →
    decodeRows schema rows = Except.ok recs →
    readRows d (schema.map Prod.fst) schema (rows.map (joinCells d)) = (recs, Option.none) := by
  intro rows
  induction rows with
  | nil =>
    intro recs _ hdec
    simp only [decodeRows, Except.ok.injEq] at hdec
    subst hdec
    rfl
  | cons r rs ih =>
    intro recs hrow hdec
    obtain ⟨hne, hdel⟩ := hrow r (List.mem_cons_self _ _)
    have hrs := fun x hx => hrow x (List.mem_cons_of_mem _ hx)
    have hrne : r ≠ [] := by
      rintro rfl
      exact hne rfl
    have hparse : csvParseLine d (joinCells d r) = r := by
      simp only [csvParseLine, if_neg hne]
      exact pySplit_joinCells d r hrne hdel
    simp only [decodeRows] at hdec
    cases h1 : decodeRowE schema r with
    | error e => rw [h1] at hdec; simp at hdec
    | ok rec1 =>
      rw [h1] at hdec
      cases h2 : decodeRows schema rs with
      | error e => rw [h2] at hdec; simp at hdec
      | ok rest2 =>
        rw [h2] at hdec
        simp only [Except.ok.injEq] at hdec
        subst hdec
        cases r with
        | nil => exact absurd rfl hrne
        | cons a as =>
          simp only [List.map_cons, readRows, hparse]
          rw [rowToDataclass_mkDictRow schema (a :: as) hnd, h1, ih rest2 hrs h2]

/-- Iteration over joined rows where one row fails to decode: the rows
before it are yielded and the loop stops with that row's own error. -/
theorem readRows_err (d : Char) (schema : List (Line × FieldType))
    (hnd : (schema.map Prod.fst).Nodup) :
    ∀ (good : List (List Line)) (recs : List Record) (bad : List Line)
      (e : PyError) (tail : List (List Line)),
    (∀ r ∈ good, joinCells d r ≠ [] ∧ ∀ c ∈ r, d ∉ c) →
    joinCells d bad ≠ [] → (∀ c ∈ bad, d ∉ c) →
    decodeRows schema good = Except.ok recs →
    decodeRowE schema bad = Except.error e →
    readRows d (schema.map Prod.fst) schema ((good ++ bad :: tail).map (joinCells d)) =
      (recs, some e) := by
  intro good
  induction good with
  | nil =>
    intro recs bad e tail _ hbne hbdel hdec hbad
    simp only [decodeRows, Except.ok.injEq] at hdec
    subst hdec
    have hbrne : bad ≠ [] := by
      rintro rfl
      exact hbne rfl
    have hparse : csvParseLine d (joinCells d bad) = bad := by
      simp only [csvParseLine, if_neg hbne]
      exact pySplit_joinCells d bad hbrne hbdel
    cases bad with
    | nil => exact absurd rfl hbrne
    | cons a as =>
      simp only [List.nil_append, List.map_cons, readRows, hparse]
      rw [rowToDataclass_mkDictRow schema (a :: as) hnd, hbad]
  | cons r rs ih =>
    intro recs bad e tail hrow hbne hbdel hdec hbad
    obtain ⟨hne, hdel⟩ := hrow r (List.mem_cons_self _ _)
    have hrs := fun x hx => hrow x (List.mem_cons_of_mem _ hx)
    have hrne : r ≠ [] := by
      rintro rfl
      exact hne rfl
    have hparse : csvParseLine d (joinCells d r) = r := by
      simp only [csvParseLine, if_neg hne]
      exact pySplit_joinCells d r hrne hdel
    simp only [decodeRows] at hdec
    cases h1 : decodeRowE schema r with
    | error e2 => rw [h1] at hdec; simp at hdec
    | ok rec1 =>
      rw [h1] at hdec
      cases h2 : decodeRows schema rs with
      | error e2 => rw [h2] at hdec; simp at hdec
      | ok rest2 =>
        rw [h2] at hdec
        simp only [Except.ok.injEq] at hdec
        subst hdec
        cases r with
        | nil => exact absurd rfl hrne
        | cons a as =>
          simp only [List.cons_append, List.map_cons, List.append_eq, readRows, hparse]
          rw [rowToDataclass_mkDictRow schema (a :: as) hnd, h1,
            ih rest2 bad e tail hrs hbne hbdel h2 hbad]

/-- Claim C1: for every well-formed input file — any preface of blank or
comment-prefixed lines, then a fieldname row that is exactly the join of
the record type's field names in order, then the data rows — opening the
reader succeeds and iterating yields exactly the file's data rows, in file
order, one decoded record per row, each field's value obtained by applying
the field's declared type to the corresponding raw string cell. -/
theorem c1_well_formed_read (path : Line) (dc : Dataclass) (d cc : Char)
    (p : List Line) (rows : List (List Line)) (recs : List Record)
    (hpre : ∀ x ∈ p, isPreface cc x = true)
    (hnd : (dc.fields.map Prod.fst).Nodup)
    (hstrip : pyStrip (joinCells d (dc.fields.map Prod.fst)) = joinCells d (dc.fields.map Prod.fst))
    (hnp : isPreface cc (joinCells d (dc.fields.map Prod.fst)) = false)
    (hdel : ∀ n ∈ dc.fields.map Prod.fst, d ∉ n)
    (hlen : ∀ r ∈ rows, r.length = dc.fields.length)
    (hcells : ∀ r ∈ rows, joinCells d r ≠ [] ∧ ∀ c ∈ r, d ∉ c)
    (hdec : decodeRows dc.fields rows = Except.ok recs) :
    readFile path dc d cc
      (p ++ joinCells d (dc.fields.map Prod.fst) :: rows.map (joinCells d)) =
      Except.ok (⟨p.map pyStrip, dc.fields.map Prod.fst⟩, recs, Option.none) := by
  simp only [readFile, openReader_preface_ok path dc d cc p _ hpre hstrip hnp hdel]
  rw [readRows_ok d dc.fields hnd rows recs hcells hdec]

/-- Witness for C1: concrete scenario B, the file with preface lines
`# note` and an empty line, fieldname row `foo<tab>bar` and data row
`abc<tab>1` against fields `foo: str, bar: int` opens with that preface
and yields exactly the record with foo mapped to "abc" and bar to 1
(scenario A is the same file without the preface). -/
theorem c1_well_formed_read_witness :
    readFile (strToLine "test.txt")
      ⟨strToLine "FakeDataclass", [(strToLine "foo", FieldType.str), (strToLine "bar", FieldType.int)]⟩
      '\t' '#' [strToLine "# note", strToLine "", strToLine "foo\tbar", strToLine "abc\t1"] =
      Except.ok (⟨[strToLine "# note", []], [strToLine "foo", strToLine "bar"]⟩,
        [[(strToLine "foo", PyValue.str (strToLine "abc")), (strToLine "bar", PyValue.int 1)]],
        Option.none) := by
  have h := c1_well_formed_read (strToLine "test.txt")
    ⟨strToLine "FakeDataclass", [(strToLine "foo", FieldType.str), (strToLine "bar", FieldType.int)]⟩
    '\t' '#' [strToLine "# note", strToLine ""] [[strToLine "abc", strToLine "1"]]
    [[(strToLine "foo", PyValue.str (strToLine "abc")), (strToLine "bar", PyValue.int 1)]]
    (by decide) (by decide) (by decide) (by decide) (by decide) (by decide) (by decide)
    (by decide)
  exact h.trans (by decide)

/-- Claim C3: whenever the parsed header's fieldname tokens differ in any
way (name, count or position) from the record type's field names, opening
fails with the schema-mismatch ValueError and no rows are produced. -/
theorem c3_schema_mismatch (path : Line) (dc : Dataclass) (d cc : Char)
    (file : List Line) (hdr : FileHeader) (rest : List Line)
    (hgh : getHeader cc d file = some (hdr, rest))
    (hne : hdr.fieldnames ≠ dc.fields.map Prod.fst) :
    readFile path dc d cc file =
      Except.error (PyError.valueError (schemaMismatchMsg dc.name path)) := by
  simp [readFile, openReader, hgh, hne]

/-- Witness for C3: concrete scenario C, the file with fieldname row
`foo<tab>baz` against fields `foo, bar` fails at open time with the
schema-mismatch ValueError. -/
theorem c3_schema_mismatch_witness :
    readFile (strToLine "test.txt")
      ⟨strToLine "FakeDataclass", [(strToLine "foo", FieldType.str), (strToLine "bar", FieldType.int)]⟩
      '\t' '#' [strToLine "foo\tbaz", strToLine "abc\t1"] =
      Except.error (PyError.valueError
        (schemaMismatchMsg (strToLine "FakeDataclass") (strToLine "test.txt"))) :=
  c3_schema_mismatch (strToLine "test.txt")
    ⟨strToLine "FakeDataclass", [(strToLine "foo", FieldType.str), (strToLine "bar", FieldType.int)]⟩
    '\t' '#' [strToLine "foo\tbaz", strToLine "abc\t1"]
    ⟨[], [strToLine "foo", strToLine "baz"]⟩ [strToLine "abc\t1"]
    (by decide) (by decide)

/-- Claim C5: on a file of only preface-eligible lines (blank or
comment-prefixed, including the empty file), the header parser reports
absence by returning no header instead of raising, and opening then fails
with the missing-header ValueError whose message names the source path. -/
theorem c5_missing_header (path : Line) (dc : Dataclass) (d cc : Char)
    (file : List Line) (hpre : ∀ l ∈ file, isPreface cc l = true) :
    getHeader cc d file = Option.none ∧
    readFile path dc d cc file = Except.error (PyError.valueError (missingHeaderMsg path)) ∧
    path <:+ missingHeaderMsg path := by
  have hgh := getHeader_none cc d file hpre
  refine ⟨hgh, ?_, ?_⟩
  · simp [readFile, openReader, hgh]
  · exact ⟨strToLine "Could not find a header in the provided file: ", rfl⟩

/-- Witness for C5: concrete scenario D, the empty file: no header is
found, and opening raises the missing-header ValueError naming the path. -/
theorem c5_missing_header_witness :
    getHeader '#' '\t' [] = Option.none ∧
    readFile (strToLine "test.txt")
      ⟨strToLine "FakeDataclass", [(strToLine "foo", FieldType.str), (strToLine "bar", FieldType.int)]⟩
      '\t' '#' [] =
      Except.error (PyError.valueError (missingHeaderMsg (strToLine "test.txt"))) ∧
    strToLine "test.txt" <:+ missingHeaderMsg (strToLine "test.txt") :=
  c5_missing_header (strToLine "test.txt")
    ⟨strToLine "FakeDataclass", [(strToLine "foo", FieldType.str), (strToLine "bar", FieldType.int)]⟩
    '\t' '#' [] (by intro l hl; cases hl)

/-- Claim C6 counterexample: the line containing a single space is neither
empty nor does it begin with the comment character, yet the header parser
classifies it as preface (storing it fully stripped, as the empty line,
not merely stripped of a line terminator) and takes the following line as
the fieldname row — against the claim, which would make the single-space
line itself the fieldname row. -/
theorem c6_counterexample :
    getHeader '#' '\t' [strToLine " ", strToLine "foo\tbar", strToLine "abc\t1"] =
      some (⟨[[]], [strToLine "foo", strToLine "bar"]⟩, [strToLine "abc\t1"]) ∧
    strToLine " " ≠ [] ∧
    lineStartsWith (strToLine " ") '#' = false ∧
    pyStrip (strToLine " ") ≠ strToLine " " := by
  decide

/-- Claim C6 (amended): the header parser classifies each leading line as
preface exactly when it is whitespace-only or begins with the comment
character, stores each preface line stripped of surrounding whitespace,
takes the first non-preface line as the fieldname row — stripped of
surrounding whitespace and split on the delimiter — and reads no further,
leaving the following lines unconsumed; and on the example file with
preface `# note` and a blank line, fieldname row `foo<tab>bar` and data
row `abc<tab>1`, the parsed header has preface ["# note", ""] and
fieldnames ["foo", "bar"], and iteration yields the one data record. -/
theorem c6_amended_header_parse (cc d : Char) (p : List Line) (l : Line) (rest : List Line)
    (hp : ∀ x ∈ p, isPreface cc x = true)
    (hl : isPreface cc l = false) :
    getHeader cc d (p ++ l :: rest) =
      some (⟨p.map pyStrip, pySplit (pyStrip l) d⟩, rest) ∧
    readFile (strToLine "test.txt")
      ⟨strToLine "FakeDataclass", [(strToLine "foo", FieldType.str), (strToLine "bar", FieldType.int)]⟩
      '\t' '#' [strToLine "# note", strToLine "", strToLine "foo\tbar", strToLine "abc\t1"] =
      Except.ok (⟨[strToLine "# note", []], [strToLine "foo", strToLine "bar"]⟩,
        [[(strToLine "foo", PyValue.str (strToLine "abc")), (strToLine "bar", PyValue.int 1)]],
        Option.none) :=
  ⟨getHeader_of_preface cc d p l rest hp hl, by decide⟩

/-- Witness for the amended C6: concrete scenario B, the file with a
comment line, a blank line, the fieldname row `foo<tab>bar` and a data
row: the preface is the stripped comment line and the empty line, the
fieldnames are foo and bar, only the data row is left unread, and reading
the whole file yields the one record decoded from that data row. -/
theorem c6_amended_header_parse_witness :
    getHeader '#' '\t' [strToLine "# note", strToLine "", strToLine "foo\tbar", strToLine "abc\t1"] =
      some (⟨[strToLine "# note", []], [strToLine "foo", strToLine "bar"]⟩, [strToLine "abc\t1"]) ∧
    readFile (strToLine "test.txt")
      ⟨strToLine "FakeDataclass", [(strToLine "foo", FieldType.str), (strToLine "bar", FieldType.int)]⟩
      '\t' '#' [strToLine "# note", strToLine "", strToLine "foo\tbar", strToLine "abc\t1"] =
      Except.ok (⟨[strToLine "# note", []], [strToLine "foo", strToLine "bar"]⟩,
        [[(strToLine "foo", PyValue.str (strToLine "abc")), (strToLine "bar", PyValue.int 1)]],
        Option.none) := by
  have h := c6_amended_header_parse '#' '\t' [strToLine "# note", strToLine ""]
    (strToLine "foo\tbar") [strToLine "abc\t1"] (by decide) (by decide)
  exact ⟨h.1.trans (by decide), h.2⟩

/-- Claim C9: whenever the header parser returns a header rather than
reporting absence, its fieldnames list is non-empty, for every input
stream, delimiter, and comment character. -/
theorem c9_fieldnames_nonempty (cc d : Char) (file : List Line) (hdr : FileHeader)
    (rest : List Line) (h : getHeader cc d file = some (hdr, rest)) :
    hdr.fieldnames ≠ [] := by
  induction file generalizing hdr rest with
  | nil => simp [getHeader] at h
  | cons l tail ih =>
    simp only [getHeader] at h
    by_cases hl : isPreface cc l = true
    · rw [if_pos (by simp [hl])] at h
      cases hgt : getHeader cc d tail with
      | none => rw [hgt] at h; simp at h
      | some pr =>
        obtain ⟨hd2, rem2⟩ := pr
        rw [hgt] at h
        simp only [Option.some.injEq, Prod.mk.injEq] at h
        obtain ⟨h1, _⟩ := h
        rw [← h1]
        simpa using ih hd2 rem2 hgt
    · rw [if_neg (by simpa using hl)] at h
      simp only [Option.some.injEq, Prod.mk.injEq] at h
      obtain ⟨h1, _⟩ := h
      rw [← h1]
      simpa using pySplit_ne_nil (pyStrip l) d

/-- Witness for C9: on the single-line file `foo<tab>bar` the parser
returns the header with fieldnames foo, bar, which is non-empty. -/
theorem c9_fieldnames_nonempty_witness :
    (⟨[], [strToLine "foo", strToLine "bar"]⟩ : FileHeader).fieldnames ≠ [] :=
  c9_fieldnames_nonempty '#' '\t' [strToLine "foo\tbar"]
    ⟨[], [strToLine "foo", strToLine "bar"]⟩ [] (by decide)

/-- Claim C4 counterexample: the data row `abc<tab>1<tab>zzz` has three
cells against the two fields `foo: str, bar: int` — the wrong number of
cells — yet advancing does not raise: it yields the record decoded from
the first two cells, and iteration ends normally, against the claim that
a row with the wrong number of cells raises a coercion error. -/
theorem c4_counterexample :
    readFile (strToLine "test.txt")
      ⟨strToLine "FakeDataclass", [(strToLine "foo", FieldType.str), (strToLine "bar", FieldType.int)]⟩
      '\t' '#' [strToLine "foo\tbar", strToLine "abc\t1\tzzz"] =
      Except.ok (⟨[], [strToLine "foo", strToLine "bar"]⟩,
        [[(strToLine "foo", PyValue.str (strToLine "abc")), (strToLine "bar", PyValue.int 1)]],
        Option.none) := by
  decide

/-- Claim C4 (amended): whenever a data cell's text cannot be converted by
its field's coercion function, advancing the iterator to that row raises
the coercion function's own error, unwrapped, at that row; that row yields
no record and no partial record is returned.  A wrong number of cells does
not itself raise: surplus cells are silently discarded and missing cells
are presented to the coercion functions as the None sentinel. -/
theorem c4_amended_decode_error (path : Line) (dc : Dataclass) (d cc : Char)
    (good : List (List Line)) (bad : List Line) (tail : List (List Line))
    (recs : List Record) (e : PyError)
    (hnd : (dc.fields.map Prod.fst).Nodup)
    (hstrip : pyStrip (joinCells d (dc.fields.map Prod.fst)) = joinCells d (dc.fields.map Prod.fst))
    (hnp : isPreface cc (joinCells d (dc.fields.map Prod.fst)) = false)
    (hdel : ∀ n ∈ dc.fields.map Prod.fst, d ∉ n)
    (hgood : ∀ r ∈ good, joinCells d r ≠ [] ∧ ∀ c ∈ r, d ∉ c)
    (hbne : joinCells d bad ≠ []) (hbdel : ∀ c ∈ bad, d ∉ c)
    (hgdec : decodeRows dc.fields good = Except.ok recs)
    (hbad : decodeRowE dc.fields bad = Except.error e) :
    readFile path dc d cc
      (joinCells d (dc.fields.map Prod.fst) :: (good ++ bad :: tail).map (joinCells d)) =
      Except.ok (⟨[], dc.fields.map Prod.fst⟩, recs, some e) := by
  simp only [readFile, openReader_header_ok path dc d cc _ hstrip hnp hdel]
  rw [readRows_err d dc.fields hnd good recs bad e tail hgood hbne hbdel hgdec hbad]

/-- Witness for the amended C4: concrete scenario E, data row
`abc<tab>notanumber` against `bar: int`: iterating raises int's own
ValueError at that row with zero records decoded. -/
theorem c4_amended_decode_error_witness :
    readFile (strToLine "test.txt")
      ⟨strToLine "FakeDataclass", [(strToLine "foo", FieldType.str), (strToLine "bar", FieldType.int)]⟩
      '\t' '#' [strToLine "foo\tbar", strToLine "abc\tnotanumber"] =
      Except.ok (⟨[], [strToLine "foo", strToLine "bar"]⟩, [],
        some (PyError.valueError
          (strToLine "invalid literal for int() with base 10: notanumber"))) := by
  have h := c4_amended_decode_error (strToLine "test.txt")
    ⟨strToLine "FakeDataclass", [(strToLine "foo", FieldType.str), (strToLine "bar", FieldType.int)]⟩
    '\t' '#' [] [strToLine "abc", strToLine "notanumber"] [] []
    (PyError.valueError (strToLine "invalid literal for int() with base 10: notanumber"))
    (by decide) (by decide) (by decide) (by decide) (by decide) (by decide) (by decide)
    (by decide) (by decide)
  exact h.trans (by decide)

/-- Claim C10: a data row with more delimiter-separated cells than
fieldnames does not fail: the surplus cells are silently discarded (they
sit under the row parser's rest key, which no field name looks up) and a
record is constructed from the first N cells in field order. -/
theorem c10_surplus_cells (path : Line) (dc : Dataclass) (d cc : Char)
    (cells : List Line) (rec : Record)
    (hnd : (dc.fields.map Prod.fst).Nodup)
    (hstrip : pyStrip (joinCells d (dc.fields.map Prod.fst)) = joinCells d (dc.fields.map Prod.fst))
    (hnp : isPreface cc (joinCells d (dc.fields.map Prod.fst)) = false)
    (hdel : ∀ n ∈ dc.fields.map Prod.fst, d ∉ n)
    (hmore : dc.fields.length < cells.length)
    (hne : joinCells d cells ≠ []) (hcdel : ∀ c ∈ cells, d ∉ c)
    (hdec : decodeRowE dc.fields (cells.take dc.fields.length) = Except.ok rec) :
    readFile path dc d cc
      (joinCells d (dc.fields.map Prod.fst) :: [joinCells d cells]) =
      Except.ok (⟨[], dc.fields.map Prod.fst⟩, [rec], Option.none) := by
  have hdec2 : decodeRowE dc.fields cells = Except.ok rec := by
    rw [← decodeRowE_take]
    exact hdec
  have hrows : readRows d (dc.fields.map Prod.fst) dc.fields ([cells].map (joinCells d)) =
      ([rec], Option.none) := by
    refine readRows_ok d dc.fields hnd [cells] [rec] ?_ ?_
    · intro r hr
      rw [List.mem_singleton] at hr
      subst hr
      exact ⟨hne, hcdel⟩
    · simp [decodeRows, hdec2]
  simp only [readFile, openReader_header_ok path dc d cc _ hstrip hnp hdel]
  rw [show [joinCells d cells] = [cells].map (joinCells d) from rfl, hrows]

/-- Witness for C10: three cells `abc, 1, zzz` against the two fields
`foo: str, bar: int` yield the record decoded from the first two cells,
with the surplus cell dropped and no error. -/
theorem c10_surplus_cells_witness :
    readFile (strToLine "t.txt")
      ⟨strToLine "FakeDataclass", [(strToLine "foo", FieldType.str), (strToLine "bar", FieldType.int)]⟩
      '\t' '#' [strToLine "foo\tbar", strToLine "abc\t1\tzzz"] =
      Except.ok (⟨[], [strToLine "foo", strToLine "bar"]⟩,
        [[(strToLine "foo", PyValue.str (strToLine "abc")), (strToLine "bar", PyValue.int 1)]],
        Option.none) := by
  have h := c10_surplus_cells (strToLine "t.txt")
    ⟨strToLine "FakeDataclass", [(strToLine "foo", FieldType.str), (strToLine "bar", FieldType.int)]⟩
    '\t' '#' [strToLine "abc", strToLine "1", strToLine "zzz"]
    [(strToLine "foo", PyValue.str (strToLine "abc")), (strToLine "bar", PyValue.int 1)]
    (by decide) (by decide) (by decide) (by decide) (by decide) (by decide) (by decide)
    (by decide)
  exact h.trans (by decide)

/-- Claim C8 counterexample: a reader opened on a one-row file, advanced
past its only record into the Exhausted state (no lines remaining, handle
still open), answers the next advance with the normal end-of-iteration
signal, not a use-after-close/misuse error — against the claim that
advancing after Exhausted fails with such an error. -/
theorem c8_counterexample :
    openReader (strToLine "test.txt")
      ⟨strToLine "FakeDataclass", [(strToLine "foo", FieldType.str), (strToLine "bar", FieldType.int)]⟩
      '\t' '#' [strToLine "foo\tbar", strToLine "abc\t1"] =
      Except.ok (⟨[], [strToLine "foo", strToLine "bar"]⟩,
        ⟨[(strToLine "foo", FieldType.str), (strToLine "bar", FieldType.int)], '\t',
          [strToLine "foo", strToLine "bar"], [strToLine "abc\t1"], false⟩) ∧
    readerNext ⟨[(strToLine "foo", FieldType.str), (strToLine "bar", FieldType.int)], '\t',
        [strToLine "foo", strToLine "bar"], [strToLine "abc\t1"], false⟩ =
      NextResult.yielded
        [(strToLine "foo", PyValue.str (strToLine "abc")), (strToLine "bar", PyValue.int 1)]
        ⟨[(strToLine "foo", FieldType.str), (strToLine "bar", FieldType.int)], '\t',
          [strToLine "foo", strToLine "bar"], [], false⟩ ∧
    readerNext ⟨[(strToLine "foo", FieldType.str), (strToLine "bar", FieldType.int)], '\t',
        [strToLine "foo", strToLine "bar"], [], false⟩ = NextResult.stop ∧
    NextResult.isErr NextResult.stop = false := by
  decide

/-- Claim C8 (amended): after the scoped block exits and the stream is
closed, any further advance raises the closed-file ValueError; after the
Exhausted state (no data rows remain but the stream is still open), a
further advance signals the normal end of iteration again, not an error. -/
theorem c8_amended_advance (s : ReaderState) :
    readerNext (closeReader s) =
      NextResult.err (PyError.valueError (strToLine "I/O operation on closed file.")) ∧
    (s.closed = false → (∀ l ∈ s.remaining, l = []) → readerNext s = NextResult.stop) := by
  constructor
  · simp [readerNext, closeReader]
  · intro hc hrem
    simp [readerNext, hc, dictReaderNext_none s.delimiter s.fieldnames s.remaining hrem]

/-- Witness for the amended C8: on the concrete exhausted reader state
bound to fields `foo, bar` with no lines remaining, closing and advancing
raises the closed-file ValueError, while advancing while still open
signals the normal end of iteration. -/
theorem c8_amended_advance_witness :
    readerNext (closeReader ⟨[(strToLine "foo", FieldType.str), (strToLine "bar", FieldType.int)],
        '\t', [strToLine "foo", strToLine "bar"], [], false⟩) =
      NextResult.err (PyError.valueError (strToLine "I/O operation on closed file.")) ∧
    readerNext ⟨[(strToLine "foo", FieldType.str), (strToLine "bar", FieldType.int)],
        '\t', [strToLine "foo", strToLine "bar"], [], false⟩ = NextResult.stop :=
  ⟨(c8_amended_advance ⟨[(strToLine "foo", FieldType.str), (strToLine "bar", FieldType.int)],
      '\t', [strToLine "foo", strToLine "bar"], [], false⟩).1,
    (c8_amended_advance ⟨[(strToLine "foo", FieldType.str), (strToLine "bar", FieldType.int)],
      '\t', [strToLine "foo", strToLine "bar"], [], false⟩).2 rfl
      (by intro l hl; cases hl)⟩

/-- Claim C2 (code bug): on the file whose header line wraps the
fieldnames in quotes, the header parser keeps the quotes in the fieldname
tokens (it splits without any unquoting, while the data-row parser
unquotes), so the tokens differ from the unquoted record field names id,
title, and opening raises the schema-mismatch ValueError instead of
succeeding. -/
theorem c2_quoted_header_rejected :
    getHeader '#' '\t' [strToLine "\"id\"\t\"title\"", strToLine "\"fake\"\t\"A fake object\""] =
      some (⟨[], [strToLine "\"id\"", strToLine "\"title\""]⟩,
        [strToLine "\"fake\"\t\"A fake object\""]) ∧
    readFile (strToLine "test.txt")
      ⟨strToLine "FakeDataclass", [(strToLine "id", FieldType.str), (strToLine "title", FieldType.str)]⟩
      '\t' '#' [strToLine "\"id\"\t\"title\"", strToLine "\"fake\"\t\"A fake object\""] =
      Except.error (PyError.valueError
        (schemaMismatchMsg (strToLine "FakeDataclass") (strToLine "test.txt"))) := by
  decide

/-- Claim C7 (code bug): the schema-mismatch message is a function of the
dataclass name and the path alone; at the mismatching scenario-C input its
full text repeats the dataclass name after the label for the dataclass
fields and repeats the path after the second file label, and neither the
dataclass field name bar nor the file fieldname baz occurs anywhere in it
— so the message does not list either field-name sequence. -/
theorem c7_message_omits_fieldnames :
    readFile (strToLine "test.txt")
      ⟨strToLine "FakeDataclass", [(strToLine "foo", FieldType.str), (strToLine "bar", FieldType.int)]⟩
      '\t' '#' [strToLine "foo\tbaz", strToLine "abc\t1"] =
      Except.error (PyError.valueError (strToLine
        "The provided file does not have the same field names as the provided dataclass:\n\tDataclass: FakeDataclass\n\tFile: test.txt\n\tDataclass fields: FakeDataclass\n\tFile: test.txt\n")) ∧
    ¬ strToLine "bar" <:+: schemaMismatchMsg (strToLine "FakeDataclass") (strToLine "test.txt") ∧
    ¬ strToLine "baz" <:+: schemaMismatchMsg (strToLine "FakeDataclass") (strToLine "test.txt") := by
  decide
